import Mathlib

/-!
# FlowOne session runtime and routing engine: a shallow embedding

This file embeds the session runtime and routing engine of the FlowOne
backend (`backend/services/multi_agent.py`, `backend/services/pipecat_runtime.py`,
`backend/api/multi_agent.py`, and the flow-session runtime
`backend/services/flows_runtime.py`) as executable Lean definitions, and
proves the spec's testable properties about them.

Modelling conventions:
* Python dicts with insertion order become association lists (`List (String × α)`)
  or lists of structures in declaration order; theorems that depend on dict-key
  uniqueness carry a `Nodup` hypothesis on the ids.
* Python functions that raise become functions returning an error component next
  to the (possibly partially mutated) state, since exceptions in the source leave
  `self`'s prior mutations in place.
* Async scheduling is modelled by the order in which the source enqueues events:
  an event put on a queue before a forwarding task is even created is delivered
  before any event that task forwards.
-/

namespace FlowOne

/-- A flow edge as consumed by `MultiAgentCoordinator` (`edge.get("source")`,
`edge.get("target")` in `_get_agent_connections`). -/
structure Edge where
  source : String
  target : String
deriving Repr, DecidableEq

/-- Incoming connections of an agent: sources of edges targeting it
(first component of `_get_agent_connections`). -/
def incomingOf (agentId : String) (edges : List Edge) : List String :=
  (edges.filter (fun e => e.target == agentId)).map (fun e => e.source)

/-- Outgoing connections of an agent: targets of edges leaving it
(second component of `_get_agent_connections`). -/
def outgoingOf (agentId : String) (edges : List Edge) : List String :=
  (edges.filter (fun e => e.source == agentId)).map (fun e => e.target)

/-- `AgentRoutingStrategy` from `backend/services/multi_agent.py`. -/
inductive AgentRoutingStrategy where
  | round_robin
  | priority
  | conditional
  | parallel
  | sequential
deriving Repr, DecidableEq

/-- `MultiAgentCoordinator._infer_strategy_from_flow`: with no edges the code
returns `ROUND_ROBIN`; otherwise it takes the maximum outgoing-edge count over
the coordinator's agents (Python `max` raises on an empty agent dict, modelled
as `none`) and picks `SEQUENTIAL` when it is at most 1, else `CONDITIONAL`. -/
def inferStrategyFromFlow (agentIds : List String) (edges : List Edge) :
    Option AgentRoutingStrategy :=
  if edges.isEmpty then some .round_robin
  else if agentIds.isEmpty then none
  else
    let maxOutgoing := (agentIds.map (fun a => (outgoingOf a edges).length)).foldl max 0
    if maxOutgoing ≤ 1 then some .sequential else some .conditional

/-- One entry of `MultiAgentCoordinator.agents`, as built by
`_init_agents_from_flow`: id, label (defaulting to the id), the `role` string
from the node config, and the connection lists from `_get_agent_connections`. -/
structure AgentInfo where
  id : String
  label : String
  role : String
  incoming : List String
  outgoing : List String
deriving Repr, DecidableEq

/-- Python `list.index` wrapped in `try/except ValueError`: the first index of
`c`, or `none`. -/
def pyIndex (l : List String) (c : String) : Option Nat :=
  match l with
  | [] => none
  | x :: t => if x == c then some 0 else (pyIndex t c).map (fun i => i + 1)

/-- `MultiAgentCoordinator._select_round_robin`: empty dict gives `None`;
a falsy current agent id gives the first agent; otherwise the agent after the
current one in declaration order, wrapping around, with a `ValueError` fallback
to the first agent when the current id is not among the keys. -/
def selectRoundRobin (agentIds : List String) (current : Option String) :
    Option String :=
  if agentIds.isEmpty then none
  else
    match current with
    | none => agentIds[0]?
    | some c =>
      if c = "" then agentIds[0]?
      else
        match pyIndex agentIds c with
        | some i => agentIds[(i + 1) % agentIds.length]?
        | none => agentIds[0]?

/-- `MultiAgentCoordinator._select_sequential`: with no current agent, the first
agent without incoming connections (falling back to the first agent, or `None`
when there are no agents); with a current agent, the head of its outgoing
connection list when nonempty, otherwise the current agent is kept. -/
def selectSequential (agents : List AgentInfo) (current : Option String) :
    Option String :=
  match current with
  | none =>
    match agents.find? (fun a => a.incoming.isEmpty) with
    | some a => some a.id
    | none => (agents[0]?).map (fun a => a.id)
  | some c =>
    if c = "" then
      match agents.find? (fun a => a.incoming.isEmpty) with
      | some a => some a.id
      | none => (agents[0]?).map (fun a => a.id)
    else
      match agents.find? (fun a => a.id == c) with
      | some a =>
        match a.outgoing with
        | next :: _ => some next
        | [] => some c
      | none => some c

/-- Python `str.lower()`, modelled character-wise. -/
def pyLower (s : String) : List Char :=
  s.toList.map Char.toLower

/-- Substring test: Python's `needle in haystack`, over character lists. -/
def strContainsSub (haystack needle : List Char) : Bool :=
  haystack.tails.any (fun t => needle.isPrefixOf t)

/-- Python `str.split()` with no argument: split on whitespace runs, dropping
empty pieces. `acc` holds the characters of the word in progress, reversed. -/
def pySplitAux : List Char → List Char → List (List Char)
  | [], acc => if acc.isEmpty then [] else [acc.reverse]
  | c :: rest, acc =>
    if c.isWhitespace then
      if acc.isEmpty then pySplitAux rest [] else acc.reverse :: pySplitAux rest []
    else pySplitAux rest (c :: acc)

/-- Python `str.split()` with no argument. -/
def pySplit (s : List Char) : List (List Char) :=
  pySplitAux s []

/-- The relevance score `_select_conditional` assigns to one agent: 10 when the
lowercased label occurs in the lowercased message, plus 5 when the node config's
`role` is nonempty and one of its words occurs in the message, plus 3 when the
agent is an outgoing connection of the (truthy) current agent. -/
def scoreAgent (agents : List AgentInfo) (current : Option String)
    (messageLower : List Char) (a : AgentInfo) : Nat :=
  let labelScore := if strContainsSub messageLower (pyLower a.label) then 10 else 0
  let role := pyLower a.role
  let roleScore :=
    if role ≠ [] ∧ (pySplit role).any (fun w => strContainsSub messageLower w) then 5
    else 0
  let connScore :=
    match current with
    | some c =>
      if c = "" then 0
      else
        match agents.find? (fun x => x.id == c) with
        | some ca => if a.id ∈ ca.outgoing then 3 else 0
        | none => 0
    | none => 0
  labelScore + roleScore + connScore

/-- Python `max(scores, key=scores.get)` over an insertion-ordered dict:
the first entry attaining the maximal score. -/
def pyMax : List (String × Nat) → Option (String × Nat)
  | [] => none
  | p :: rest =>
    match pyMax rest with
    | none => some p
    | some q => if q.2 > p.2 then some q else some p

/-- The fallback `self.current_agent_id or list(self.agents.keys())[0]`:
a truthy current agent id, else the first agent. -/
def currentOrFirst (agents : List AgentInfo) (current : Option String) :
    Option String :=
  match current with
  | some c => if c = "" then (agents[0]?).map (fun a => a.id) else some c
  | none => (agents[0]?).map (fun a => a.id)

/-- `MultiAgentCoordinator._select_conditional`: score every agent, take the
first maximal one; switch to it only when its score is positive, otherwise fall
back to the current agent (or the first agent when none). -/
def selectConditional (agents : List AgentInfo) (current : Option String)
    (userMessage : String) : Option String :=
  if agents.isEmpty then none
  else
    let messageLower := pyLower userMessage
    let scores := agents.map (fun a => (a.id, scoreAgent agents current messageLower a))
    match pyMax scores with
    | some sel => if sel.2 > 0 then some sel.1 else currentOrFirst agents current
    | none => currentOrFirst agents current

/-- One entry of `MultiAgentCoordinator.conversation_history`. The `context`
dict stored on user entries is threaded through unchanged by the source and
never read, so it is not modelled. -/
structure HistEntry where
  role : String
  agentId : Option String
  content : String
deriving Repr, DecidableEq

/-- The mutable state of a `MultiAgentCoordinator` relevant to message
processing. -/
structure Coordinator where
  agents : List AgentInfo
  strategy : AgentRoutingStrategy
  currentAgentId : Option String
  history : List HistEntry
deriving Repr, DecidableEq

/-- `MultiAgentCoordinator._select_priority`: the first agent in declaration
order. -/
def selectPriority (agents : List AgentInfo) : Option String :=
  (agents[0]?).map (fun a => a.id)

/-- `MultiAgentCoordinator._select_agent`: dispatch on the strategy; the
`parallel` strategy falls into the default branch returning the first agent. -/
def selectAgent (co : Coordinator) (userMessage : String) : Option String :=
  match co.strategy with
  | .round_robin => selectRoundRobin (co.agents.map (fun a => a.id)) co.currentAgentId
  | .sequential => selectSequential co.agents co.currentAgentId
  | .conditional => selectConditional co.agents co.currentAgentId userMessage
  | .priority => selectPriority co.agents
  | .parallel => selectPriority co.agents

/-- The dict `process_message` returns: an optional `error` field, the selected
agent id, and the response text. -/
structure ProcessResult where
  error : Option String
  agentId : Option String
  response : String
deriving Repr, DecidableEq

/-- `MultiAgentCoordinator.process_message`: append the user entry to the
history, select an agent; when none is selected (or the selection is falsy or
not a key of `agents`) return the "No suitable agent found" result leaving the
state otherwise untouched; otherwise produce the agent's placeholder response,
update `current_agent_id` and append the agent entry. -/
def processMessage (co : Coordinator) (userMessage : String) :
    ProcessResult × Coordinator :=
  let co1 : Coordinator :=
    { co with history := co.history ++ [⟨"user", none, userMessage⟩] }
  let noAgent : ProcessResult × Coordinator :=
    (⟨some "No suitable agent found", none,
      "I'm sorry, I couldn't route your request to an appropriate agent."⟩, co1)
  match selectAgent co1 userMessage with
  | none => noAgent
  | some aid =>
    if aid = "" then noAgent
    else
      match co1.agents.find? (fun a => a.id == aid) with
      | none => noAgent
      | some agent =>
        let lbl := agent.label
        let response := s!"[{lbl}] Response to: {userMessage}"
        (⟨none, some aid, response⟩,
         { co1 with
             currentAgentId := some aid,
             history := co1.history ++ [⟨"agent", some aid, response⟩] })

/-! ## Pipecat session runtime (`backend/services/pipecat_runtime.py`) -/

/-- An event on a pipecat `Session.queue`, restricted to the constructors the
claims touch; every other event kind is carried opaquely by `other`. -/
inductive PEvent where
  | sessionStarted (sessionId : String)
  | routeEv (fromNodeId : Option String) (toNodeId : String) (reason : String)
  | error (message : String)
  | other (ty : String)
deriving Repr, DecidableEq

/-- The state of one pipecat `Session` relevant to `close`: its id, the Tavus
avatar handle (when an avatar leg was started), whether the Pipecat Tavus
pipeline task and the message task are still running, and the event queue. -/
structure PSession where
  id : String
  tavusSessionId : Option String
  tavusTaskRunning : Bool
  taskRunning : Bool
  queue : List PEvent
deriving Repr, DecidableEq

/-- `Session.close`: attempt to stop the Tavus leg when one was acquired
(returned as the list of released external handles), cancel the Pipecat
pipeline task and the message task. Each step of the source is wrapped in
`try/except`, so every exit path reaches the cancellations; the function being
total models that. No event is put on any queue. -/
def sessionClose (s : PSession) : PSession × List String :=
  let released := match s.tavusSessionId with
    | some t => [t]
    | none => []
  ({ s with tavusTaskRunning := false, taskRunning := false }, released)

/-- The `SessionManager`: an insertion-ordered dict of live sessions. -/
structure PManager where
  sessions : List (String × PSession)
deriving Repr, DecidableEq

/-- Dict lookup `self.sessions.get(session_id)`. -/
def pmGet (m : PManager) (sid : String) : Option PSession :=
  (m.sessions.find? (fun p => p.1 == sid)).map (fun p => p.2)

/-- `SessionManager.close_async`: `pop` the session (no-op when absent), then
best-effort `close` it. Returns the new manager state and the external handles
released by the close. -/
def closeAsync (m : PManager) (sid : String) : PManager × List String :=
  match pmGet m sid with
  | none => (m, [])
  | some s =>
    (⟨m.sessions.eraseP (fun p => p.1 == sid)⟩, (sessionClose s).2)

/-- What `SessionManager.events` does before any live streaming: the result is
either a closed generator that yielded a fixed list of events (the
unknown-session path, which yields one error event and returns without
raising), or an attachment to a live session's endless `stream_events`. -/
inductive EventStreamResult where
  | closedWith (evs : List PEvent)
  | attached (s : PSession)
deriving Repr, DecidableEq

/-- `SessionManager.events`. -/
def managerEvents (m : PManager) (sid : String) : EventStreamResult :=
  match pmGet m sid with
  | none => .closedWith [.error "session not found"]
  | some s => .attached s

/-! ## Flow-session runtime (`backend/services/flows_runtime.py`) -/

/-- A flow node as used by the flow-session runtime (`id` and `agentId`). -/
structure FlowNode where
  id : String
  agentId : String
deriving Repr, DecidableEq

/-- An event on a `FlowSession._q`. `nodeStarted` is the spawned pipecat
session's `session.started` startup event as forwarded by the `pipe()` task,
which tags it with the node id. -/
inductive FEvent where
  | flowStarted (flowSessionId : String) (nodeId : String)
  | route (flowSessionId : String) (fromNodeId : Option String)
      (toNodeId : String) (reason : String)
  | nodeStarted (nodeId : String) (sessionId : String)
deriving Repr, DecidableEq

/-- The state of a `FlowSession` together with the parts of its environment the
claims observe: the pipecat `session_manager`'s set of live session ids, and
the flow session's own queue. -/
structure FlowSessionState where
  fsid : String
  flow : List FlowNode
  active : Option String
  currentSessionId : Option String
  q : List FEvent
  closed : Bool
  liveSessions : List String
deriving Repr, DecidableEq

/-- Errors `_start_node` can raise: the bare `next(...)` over flow nodes raises
`StopIteration` when the node id is absent, and a missing agent raises
`ValueError("agent not found")`. -/
inductive StartNodeError where
  | nodeNotFound
  | agentNotFound
deriving Repr, DecidableEq

/-- `FlowSession._start_node`, parameterised by the agent store (the ids
`get_agent` resolves) and the fresh pipecat session id the source derives from
a uuid. On success it spawns the pipecat session (adding it to the live set),
records it as current, sets `active_node_id`, and the `pipe()` task forwards
the spawned session's synchronously-enqueued `session.started` event into the
flow queue tagged with the node id. On failure the state is returned unchanged
alongside the error, since the Python exception propagates before any
mutation. -/
def startNode (agentStore : List String) (s : FlowSessionState)
    (nodeId : String) (freshSid : String) :
    Option StartNodeError × FlowSessionState :=
  match s.flow.find? (fun n => n.id == nodeId) with
  | none => (some .nodeNotFound, s)
  | some node =>
    if node.agentId ∈ agentStore then
      (none,
       { s with
           liveSessions := s.liveSessions ++ [freshSid],
           currentSessionId := some freshSid,
           active := some nodeId,
           q := s.q ++ [.nodeStarted nodeId freshSid] })
    else (some .agentNotFound, s)

/-- `FlowSession.route`: close the current pipecat session when one exists
(`session_manager.close` pops it from the live set), put the `route` event
carrying the pre-call `active_node_id` on the queue, then `_start_node` the
target. The route event is enqueued before `_start_node` even creates the
forwarding task, so it precedes the new node's `session.started` in the queue.
Mutations made before a failing `_start_node` persist, as in the source. -/
def route (agentStore : List String) (s : FlowSessionState)
    (toNodeId reason freshSid : String) :
    Option StartNodeError × FlowSessionState :=
  let s1 : FlowSessionState :=
    match s.currentSessionId with
    | some sid => { s with liveSessions := s.liveSessions.eraseP (fun x => x == sid) }
    | none => s
  let s2 : FlowSessionState :=
    { s1 with q := s1.q ++ [.route s1.fsid s1.active toNodeId reason] }
  startNode agentStore s2 toNodeId freshSid

/-! ## Multi-agent session registry (`backend/api/multi_agent.py`) -/

/-- The id `start_multi_agent_session` generates:
`f"ma_{req.flow_id}_{len(_active_coordinators)}"`. -/
def genSessionId (regSize : Nat) (flowId : String) : String :=
  "ma_" ++ flowId ++ "_" ++ toString regSize

/-- Python dict assignment `d[k] = v`: replace in place when the key exists,
append otherwise. -/
def dictInsert {α : Type} (l : List (String × α)) (k : String) (v : α) :
    List (String × α) :=
  if l.any (fun p => p.1 == k) then
    l.map (fun p => if p.1 == k then (k, v) else p)
  else l ++ [(k, v)]

/-- The registration step of `start_multi_agent_session`: generate the session
id from the current registry size and store the coordinator under it. Returns
the generated id and the new registry. -/
def registerCoordinator {α : Type} (reg : List (String × α)) (flowId : String)
    (co : α) : String × List (String × α) :=
  let sid := genSessionId reg.length flowId
  (sid, dictInsert reg sid co)

/-- `stop_multi_agent_session`'s registry effect: `pop` the entry. -/
def deregisterCoordinator {α : Type} (reg : List (String × α)) (sid : String) :
    List (String × α) :=
  reg.eraseP (fun p => p.1 == sid)

/-! ## Concrete scenario inputs from the spec's testable properties -/

/-- The conditional-router example: nodes `{sales, support}`, one labelled
`sales`, empty roles, no edges. -/
def condExampleAgents : List AgentInfo :=
  [⟨"sales", "sales", "", [], []⟩, ⟨"support", "support", "", [], []⟩]

/-- The sequential-router example: a 3-node chain `A → B → C`. -/
def chainAgents : List AgentInfo :=
  [⟨"A", "A", "", [], ["B"]⟩, ⟨"B", "B", "", ["A"], ["C"]⟩, ⟨"C", "C", "", ["B"], []⟩]

/-- A coordinator on the chain, started at `A`, using the sequential
strategy. -/
def chainCoord : Coordinator :=
  ⟨chainAgents, .sequential, some "A", []⟩

/-- One handoff trigger: process a user message and keep the resulting
coordinator state. -/
def coordStep (co : Coordinator) (msg : String) : Coordinator :=
  (processMessage co msg).2

/-- The concrete flow-session state used to exercise `route` against an
invalid target: one node `n1` backed by agent `ag1`, active, with live
pipecat session `s0`. -/
def invalidRouteSession : FlowSessionState :=
  ⟨"fs", [⟨"n1", "ag1"⟩], some "n1", some "s0", [], false, ["s0"]⟩

/-- A two-node flow session used to exercise a valid handoff: active on `n1`
with live pipecat session `s0`. -/
def routeDemoSession : FlowSessionState :=
  ⟨"fs", [⟨"n1", "ag1"⟩, ⟨"n2", "ag2"⟩], some "n1", some "s0", [], false, ["s0"]⟩

/-- A one-session pipecat manager whose session holds a Tavus avatar handle
and two running tasks. -/
def demoManager : PManager :=
  ⟨[("s1", ⟨"s1", some "tv1", true, true, []⟩)]⟩

end FlowOne

namespace FlowOne

/-- `pyMax` of a nonempty list exists. -/
theorem pyMax_isSome (p : String × Nat) (rest : List (String × Nat)) :
    (pyMax (p :: rest)).isSome := by
  simp only [pyMax]
  cases pyMax rest with
  | none => simp
  | some q => by_cases h : q.2 > p.2 <;> simp [h]

/-- `pyMax` returns the first entry attaining the maximal score: it occurs at
some index, bounds every entry, and strictly dominates every earlier entry. -/
theorem pyMax_spec (l : List (String × Nat)) (q : String × Nat)
    (h : pyMax l = some q) :
    ∃ i, l[i]? = some q ∧ (∀ p ∈ l, p.2 ≤ q.2) ∧
      (∀ (j : Nat) (r : String × Nat), j < i → l[j]? = some r → r.2 < q.2) := by
  induction l generalizing q with
  | nil => simp [pyMax] at h
  | cons p rest ih =>
    cases hr : pyMax rest with
    | none =>
      simp only [pyMax, hr] at h
      obtain rfl : p = q := by simpa using h
      have hrest : rest = [] := by
        cases rest with
        | nil => rfl
        | cons a t =>
          have hs := pyMax_isSome a t
          rw [hr] at hs
          simp at hs
      subst hrest
      refine ⟨0, by simp, ?_, ?_⟩
      · intro r hr2
        simp at hr2
        subst hr2
        exact le_refl _
      · intro j r hj _
        exact absurd hj (Nat.not_lt_zero j)
    | some m =>
      simp only [pyMax, hr] at h
      by_cases hgt : m.2 > p.2
      · rw [if_pos hgt] at h
        obtain rfl : m = q := by simpa using h
        obtain ⟨i, hi, hub, hlt⟩ := ih m hr
        refine ⟨i + 1, by simpa using hi, ?_, ?_⟩
        · intro r hmem
          rcases List.mem_cons.mp hmem with h1 | h1
          · subst h1
            exact le_of_lt hgt
          · exact hub r h1
        · intro j r hj hjr
          cases j with
          | zero =>
            simp at hjr
            subst hjr
            exact hgt
          | succ k =>
            simp at hjr
            exact hlt k r (Nat.lt_of_succ_lt_succ hj) hjr
      · rw [if_neg hgt] at h
        obtain rfl : p = q := by simpa using h
        obtain ⟨i, hi, hub, hlt⟩ := ih m hr
        refine ⟨0, by simp, ?_, ?_⟩
        · intro r hmem
          rcases List.mem_cons.mp hmem with h1 | h1
          · subst h1
            exact le_refl _
          · exact le_trans (hub r h1) (Nat.le_of_not_lt hgt)
        · intro j r hj _
          exact absurd hj (Nat.not_lt_zero j)

end FlowOne

namespace FlowOne

/-- In a list whose keys are duplicate-free, `find?` by key locates a member. -/
theorem find_by_key_of_mem {α : Type} (key : α → String) (l : List α) (x : α)
    (hmem : x ∈ l) (hnd : (l.map key).Nodup) :
    l.find? (fun y => key y == key x) = some x := by
  induction l with
  | nil => simp at hmem
  | cons b t ih =>
    rcases List.mem_cons.mp hmem with hxb | hxt
    · subst hxb
      simp [List.find?_cons]
    · have hb : key b ≠ key x := by
        intro he
        have : key x ∈ t.map key := List.mem_map_of_mem key hxt
        rw [← he] at this
        exact (List.nodup_cons.mp hnd).1 this
      rw [List.find?_cons]
      have : (key b == key x) = false := by simpa using hb
      rw [this]
      exact ih hxt (List.nodup_cons.mp hnd).2

/-- `pyIndex` recovers the declaration index in a duplicate-free list. -/
theorem pyIndex_of_getElem (l : List String) (c : String) (i : Nat)
    (hnd : l.Nodup) (hi : l[i]? = some c) :
    pyIndex l c = some i := by
  induction l generalizing i with
  | nil => simp at hi
  | cons a t ih =>
    cases i with
    | zero =>
      simp at hi
      subst hi
      simp [pyIndex]
    | succ n =>
      simp at hi
      have hmem : c ∈ t := List.getElem?_mem hi
      have hne : a ≠ c := by
        intro he
        subst he
        exact (List.nodup_cons.mp hnd).1 hmem
      simp [pyIndex, hne, ih n (List.nodup_cons.mp hnd).2 hi]

/-- `foldl max` bound, elementwise. -/
theorem foldl_max_le_iff (l : List Nat) (b n : Nat) :
    l.foldl max b ≤ n ↔ b ≤ n ∧ ∀ x ∈ l, x ≤ n := by
  induction l generalizing b with
  | nil => simp
  | cons x t ih =>
    simp [List.foldl_cons, ih, Nat.max_le]
    tauto

end FlowOne

namespace FlowOne

/-- C4 counterexample: for a flow with one agent and no edges at all, the
inferred strategy is RoundRobin, not Sequential as the claim demands for
edge-free flows. -/
theorem C4_counterexample :
    inferStrategyFromFlow ["a"] [] = some AgentRoutingStrategy.round_robin ∧
    AgentRoutingStrategy.round_robin ≠ AgentRoutingStrategy.sequential := by
  decide

/-- C4 (amended): with a nonempty agent set, the inferred strategy is
RoundRobin when the flow has no edges at all; Sequential when it has edges and
every agent has at most one outgoing edge; and Conditional when some agent has
two or more outgoing edges. -/
theorem C4_infer_strategy (agentIds : List String) (edges : List Edge)
    (hne : agentIds ≠ []) :
    (edges = [] → inferStrategyFromFlow agentIds edges = some .round_robin) ∧
    (edges ≠ [] → (∀ a ∈ agentIds, (outgoingOf a edges).length ≤ 1) →
      inferStrategyFromFlow agentIds edges = some .sequential) ∧
    (edges ≠ [] → (∃ a ∈ agentIds, 2 ≤ (outgoingOf a edges).length) →
      inferStrategyFromFlow agentIds edges = some .conditional) := by
  refine ⟨?_, ?_, ?_⟩
  · intro he
    subst he
    simp [inferStrategyFromFlow]
  · intro hne2 hall
    have hmax : ((agentIds.map (fun a => (outgoingOf a edges).length)).foldl max 0) ≤ 1 := by
      rw [foldl_max_le_iff]
      refine ⟨Nat.zero_le 1, ?_⟩
      intro x hx
      obtain ⟨a, ha, rfl⟩ := List.mem_map.mp hx
      exact hall a ha
    simp [inferStrategyFromFlow, List.isEmpty_iff, hne2, hne, hmax]
  · rintro hne2 ⟨a, ha, h2⟩
    have hmax : ¬ ((agentIds.map (fun a => (outgoingOf a edges).length)).foldl max 0 ≤ 1) := by
      rw [foldl_max_le_iff]
      push_neg
      intro _
      exact ⟨_, List.mem_map_of_mem _ ha, by omega⟩
    simp [inferStrategyFromFlow, List.isEmpty_iff, hne2, hne, hmax]

/-- C4 witness: a flow where agent `a` has two outgoing edges infers
Conditional, and a single-edge chain infers Sequential. -/
theorem C4_witness :
    inferStrategyFromFlow ["a", "b"] [⟨"a", "b"⟩, ⟨"a", "a"⟩]
      = some AgentRoutingStrategy.conditional ∧
    inferStrategyFromFlow ["a", "b"] [⟨"a", "b"⟩]
      = some AgentRoutingStrategy.sequential := by
  constructor
  · exact (C4_infer_strategy ["a", "b"] [⟨"a", "b"⟩, ⟨"a", "a"⟩] (by decide)).2.2
      (by decide) ⟨"a", by decide, by decide⟩
  · exact (C4_infer_strategy ["a", "b"] [⟨"a", "b"⟩] (by decide)).2.1
      (by decide) (by decide)

/-- C6: under the RoundRobin strategy, on a non-empty flow, selection cycles
through the agent ids in declaration order independent of edges: from the
agent at declaration index `i` of `n` agents it selects the one at index
`(i + 1) % n`, and with no current agent it selects the first declared
agent. -/
theorem C6_round_robin (agentIds : List String) (c : String) (i : Nat)
    (hnd : agentIds.Nodup) (hc : c ≠ "") (hi : agentIds[i]? = some c) :
    selectRoundRobin agentIds (some c) = agentIds[(i + 1) % agentIds.length]? ∧
    selectRoundRobin agentIds none = agentIds[0]? := by
  have hne : agentIds ≠ [] := by
    intro he
    subst he
    simp at hi
  have hidx := pyIndex_of_getElem agentIds c i hnd hi
  constructor
  · simp [selectRoundRobin, List.isEmpty_iff, hne, hc, hidx]
  · simp [selectRoundRobin, List.isEmpty_iff, hne]

/-- C6 witness: on three agents the successor of the last wraps around to
the first, and with no current agent the first agent is selected. -/
theorem C6_witness :
    selectRoundRobin ["a", "b", "c"] (some "c") = some "a" ∧
    selectRoundRobin ["a", "b", "c"] none = some "a" := by
  have h := C6_round_robin ["a", "b", "c"] "c" 2 (by decide) (by decide) (by decide)
  simpa using h

/-- C10: whenever `process_message` returns the "No suitable agent found"
error, the current agent id keeps its prior value and only the user-role entry
for the incoming message is appended to the conversation history; the agent
table and strategy are untouched as well. -/
theorem C10_no_agent_frame (co : Coordinator) (msg : String)
    (herr : (processMessage co msg).1.error = some "No suitable agent found") :
    (processMessage co msg).2.currentAgentId = co.currentAgentId ∧
    (processMessage co msg).2.history = co.history ++ [⟨"user", none, msg⟩] ∧
    (processMessage co msg).2.agents = co.agents ∧
    (processMessage co msg).2.strategy = co.strategy := by
  cases hsel : selectAgent { co with history := co.history ++ [⟨"user", none, msg⟩] } msg with
  | none => simp [processMessage, hsel]
  | some aid =>
    by_cases haid : aid = ""
    · simp [processMessage, hsel, haid]
    · cases hfind : co.agents.find? (fun a => a.id == aid) with
      | none => simp [processMessage, hsel, haid, hfind]
      | some agent =>
        exfalso
        simp [processMessage, hsel, haid, hfind] at herr

/-- C10 witness: with no agents configured, processing a message yields the
error result, leaves the current agent unset and appends only the user
entry. -/
theorem C10_witness :
    (processMessage ⟨[], .conditional, none, []⟩ "hi").2.currentAgentId = none ∧
    (processMessage ⟨[], .conditional, none, []⟩ "hi").2.history
      = [⟨"user", none, "hi"⟩] := by
  have h := C10_no_agent_frame ⟨[], .conditional, none, []⟩ "hi" (by decide)
  exact ⟨h.1, by simpa using h.2.1⟩

end FlowOne

namespace FlowOne

/-- C5: under the Sequential strategy, selection follows the single outgoing
edge of the current agent, and an agent without outgoing edges is a no-op
(stays on the current agent); moreover on the 3-node chain `A → B → C` started
at `A`, two handoff triggers end with the current agent `C` and a third
trigger leaves it at `C`. -/
theorem C5_sequential (agents : List AgentInfo) (a : AgentInfo) (d : String)
    (hmem : a ∈ agents) (hnd : (agents.map (fun x => x.id)).Nodup)
    (hid : a.id ≠ "") :
    (a.outgoing = [d] → selectSequential agents (some a.id) = some d) ∧
    (a.outgoing = [] → selectSequential agents (some a.id) = some a.id) ∧
    (coordStep (coordStep chainCoord "go") "go").currentAgentId = some "C" ∧
    (coordStep (coordStep (coordStep chainCoord "go") "go") "go").currentAgentId
      = some "C" := by
  have hfind : agents.find? (fun y => y.id == a.id) = some a := by
    simpa using find_by_key_of_mem (fun x => x.id) agents a hmem hnd
  refine ⟨?_, ?_, by decide, by decide⟩
  · intro hout
    simp [selectSequential, hid, hfind, hout]
  · intro hout
    simp [selectSequential, hid, hfind, hout]

/-- C5 witness: on the chain, the single outgoing edge of `B` leads to `C`,
and `C`, having none, is kept. -/
theorem C5_witness :
    selectSequential chainAgents (some "B") = some "C" ∧
    selectSequential chainAgents (some "C") = some "C" := by
  constructor
  · exact (C5_sequential chainAgents ⟨"B", "B", "", ["A"], ["C"]⟩ "C"
      (by decide) (by decide) (by decide)).1 rfl
  · exact (C5_sequential chainAgents ⟨"C", "C", "", ["B"], []⟩ "x"
      (by decide) (by decide) (by decide)).2.1 rfl

end FlowOne

namespace FlowOne

/-- C3: under the Conditional strategy, the selected agent scores at least as
high as every agent and strictly higher than every agent declared before it
(ties broken by declaration order); when every agent scores zero the current
agent is kept; and on the concrete example, message "transfer me to sales"
against nodes `{sales, support}` selects the node labelled `sales`. -/
theorem C3_conditional (agents : List AgentInfo) (current : Option String)
    (msg : String) :
    (∀ sel, selectConditional agents current msg = some sel →
      (∃ b ∈ agents, 0 < scoreAgent agents current (pyLower msg) b) →
      ∃ (i : Nat) (a : AgentInfo), agents[i]? = some a ∧ a.id = sel ∧
        (∀ b ∈ agents,
          scoreAgent agents current (pyLower msg) b
            ≤ scoreAgent agents current (pyLower msg) a) ∧
        (∀ (j : Nat) (b : AgentInfo), j < i → agents[j]? = some b →
          scoreAgent agents current (pyLower msg) b
            < scoreAgent agents current (pyLower msg) a)) ∧
    (∀ c, current = some c → c ≠ "" →
      (∀ b ∈ agents, scoreAgent agents current (pyLower msg) b = 0) →
      agents ≠ [] →
      selectConditional agents current msg = some c) ∧
    selectConditional condExampleAgents none "transfer me to sales"
      = some "sales" := by
  refine ⟨?_, ?_, by decide⟩
  · rintro sel hsel ⟨b0, hb0, hpos⟩
    have hne : agents ≠ [] := by
      intro he
      subst he
      simp at hb0
    have hrw : selectConditional agents current msg =
        (match pyMax (agents.map
            (fun a => (a.id, scoreAgent agents current (pyLower msg) a))) with
         | some q => if q.2 > 0 then some q.1 else currentOrFirst agents current
         | none => currentOrFirst agents current) := by
      rw [selectConditional, if_neg (by simpa [List.isEmpty_iff] using hne)]
    rw [hrw] at hsel
    set f := fun a => (a.id, scoreAgent agents current (pyLower msg) a) with hf
    cases hm : pyMax (agents.map f) with
    | none =>
      obtain ⟨b1, t, rfl⟩ : ∃ b1 t, agents = b1 :: t := by
        cases agents with
        | nil => exact absurd rfl hne
        | cons x xs => exact ⟨x, xs, rfl⟩
      have hs := pyMax_isSome (f b1) (t.map f)
      rw [← List.map_cons] at hs
      rw [hm] at hs
      simp at hs
    | some q =>
      rw [hm] at hsel
      obtain ⟨i, hiq, hub, hlt⟩ := pyMax_spec (agents.map f) q hm
      have hmem0 : f b0 ∈ agents.map f := List.mem_map_of_mem f hb0
      have hq2 : 0 < q.2 := lt_of_lt_of_le hpos (hub (f b0) hmem0)
      have hsel2 : (if q.2 > 0 then some q.1 else currentOrFirst agents current)
          = some sel := hsel
      rw [if_pos (show q.2 > 0 by simpa using hq2)] at hsel2
      obtain ⟨a, hai, hfa⟩ : ∃ a, agents[i]? = some a ∧ f a = q := by
        rw [List.getElem?_map] at hiq
        cases hia : agents[i]? with
        | none =>
          rw [hia] at hiq
          simp at hiq
        | some a =>
          rw [hia] at hiq
          simp at hiq
          exact ⟨a, rfl, hiq⟩
      refine ⟨i, a, hai, ?_, ?_, ?_⟩
      · have hq1 : q.1 = sel := by simpa using hsel2
        rw [← hq1, ← hfa]
      · intro b hb
        have hb2 : (f b).2 ≤ q.2 := hub (f b) (List.mem_map_of_mem f hb)
        rw [← hfa] at hb2
        simpa using hb2
      · intro j b hj hjb
        have hjq : (agents.map f)[j]? = some (f b) := by
          rw [List.getElem?_map, hjb]
          rfl
        have hblt := hlt j (f b) hj hjq
        rw [← hfa] at hblt
        simpa using hblt
  · intro c hc hcne hzero hne
    subst hc
    have hrw : selectConditional agents (some c) msg =
        (match pyMax (agents.map
            (fun a => (a.id, scoreAgent agents (some c) (pyLower msg) a))) with
         | some q => if q.2 > 0 then some q.1 else currentOrFirst agents (some c)
         | none => currentOrFirst agents (some c)) := by
      rw [selectConditional, if_neg (by simpa [List.isEmpty_iff] using hne)]
    rw [hrw]
    set f := fun a => (a.id, scoreAgent agents (some c) (pyLower msg) a) with hf
    cases hm : pyMax (agents.map f) with
    | none =>
      simp [currentOrFirst, hcne]
    | some q =>
      obtain ⟨i, hiq, hub, hlt⟩ := pyMax_spec (agents.map f) q hm
      have hqmem : q ∈ agents.map f := List.getElem?_mem hiq
      obtain ⟨b, hb, hfb⟩ := List.mem_map.mp hqmem
      have hq2 : q.2 = 0 := by
        rw [← hfb]
        simpa using hzero b hb
      show (if q.2 > 0 then some q.1 else currentOrFirst agents (some c)) = some c
      rw [if_neg (by simp [hq2])]
      simp [currentOrFirst, hcne]

end FlowOne

namespace FlowOne

/-- C3 witness: with current agent `support` and an unrelated message, every
score is zero and the current agent is kept. -/
theorem C3_witness :
    selectConditional condExampleAgents (some "support") "hello"
      = some "support" := by
  exact (C3_conditional condExampleAgents (some "support") "hello").2.1 "support"
    rfl (by decide) (by decide) (by decide)

/-- C1: a handoff on a Running session with a valid target appends exactly
the `route` event followed by the new node's started event: the `route`
event's `fromNodeId` is the `activeNodeId` immediately prior to the call, the
started event carries the handoff's `toNodeId`, and the `route` event
precedes it in the queue. -/
theorem C1_route_events (agentStore : List String) (s : FlowSessionState)
    (a : String) (node : FlowNode) (toNodeId reason freshSid : String)
    (_hrun : s.closed = false) (hact : s.active = some a)
    (hmem : node ∈ s.flow) (hnode : node.id = toNodeId)
    (hnd : (s.flow.map (fun n => n.id)).Nodup)
    (hagent : node.agentId ∈ agentStore) :
    (route agentStore s toNodeId reason freshSid).1 = none ∧
    (route agentStore s toNodeId reason freshSid).2.q
      = s.q ++ [.route s.fsid (some a) toNodeId reason,
                .nodeStarted toNodeId freshSid] ∧
    (route agentStore s toNodeId reason freshSid).2.active = some toNodeId := by
  have hfind : s.flow.find? (fun n => n.id == toNodeId) = some node := by
    rw [← hnode]
    simpa using find_by_key_of_mem (fun n => n.id) s.flow node hmem hnd
  cases hcs : s.currentSessionId with
  | none =>
    refine ⟨?_, ?_, ?_⟩ <;> simp [route, startNode, hcs, hfind, hagent, hact]
  | some sid =>
    refine ⟨?_, ?_, ?_⟩ <;> simp [route, startNode, hcs, hfind, hagent, hact]

end FlowOne

namespace FlowOne

/-- In a duplicate-free list, erasing the first occurrence of `a` removes every
occurrence of `a`. -/
theorem not_mem_eraseP_self (l : List String) (a : String) (hnd : l.Nodup) :
    a ∉ l.eraseP (fun x => x == a) := by
  induction l with
  | nil => simp
  | cons b t ih =>
    by_cases hb : b = a
    · subst hb
      rw [List.eraseP_cons_of_pos (by simp)]
      exact (List.nodup_cons.mp hnd).1
    · rw [List.eraseP_cons_of_neg (by simpa using hb)]
      intro hmem
      rcases List.mem_cons.mp hmem with h1 | h1
      · exact hb h1.symm
      · exact ih (List.nodup_cons.mp hnd).2 h1

/-- After erasing the entry with key `sid` from a key-duplicate-free
association list, no entry with key `sid` remains. -/
theorem find_eraseP_key_none {α : Type} (l : List (String × α)) (sid : String)
    (hnd : (l.map (fun p => p.1)).Nodup) :
    (l.eraseP (fun p => p.1 == sid)).find? (fun p => p.1 == sid) = none := by
  induction l with
  | nil => simp
  | cons b t ih =>
    by_cases hb : b.1 = sid
    · rw [List.eraseP_cons_of_pos (by simpa using hb)]
      rw [List.find?_eq_none]
      intro p hp
      simp only [beq_iff_eq]
      intro hpe
      have hmem : sid ∈ t.map (fun p => p.1) :=
        List.mem_map.mpr ⟨p, hp, hpe⟩
      rw [← hb] at hmem
      exact absurd hmem (List.nodup_cons.mp hnd).1
    · rw [List.eraseP_cons_of_neg (by simpa using hb)]
      rw [List.find?_eq_none]
      intro p hp
      simp only [beq_iff_eq]
      rcases List.mem_cons.mp hp with h1 | h1
      · subst h1
        exact hb
      · have hihn := ih (List.nodup_cons.mp hnd).2
        rw [List.find?_eq_none] at hihn
        have h2 := hihn p h1
        simpa using h2

end FlowOne

namespace FlowOne

/-- C1 witness: routing the two-node demo session from `n1` to `n2` emits
the route event from `n1` to `n2` and then the started event for `n2`, in
that order. -/
theorem C1_witness :
    (route ["ag1", "ag2"] routeDemoSession "n2" "manual" "s1").1 = none ∧
    (route ["ag1", "ag2"] routeDemoSession "n2" "manual" "s1").2.q
      = [.route "fs" (some "n1") "n2" "manual", .nodeStarted "n2" "s1"] ∧
    (route ["ag1", "ag2"] routeDemoSession "n2" "manual" "s1").2.active
      = some "n2" := by
  have h := C1_route_events ["ag1", "ag2"] routeDemoSession "n1" ⟨"n2", "ag2"⟩
    "n2" "manual" "s1" rfl rfl (by decide) rfl (by decide) (by decide)
  simpa using h

/-- C2 counterexample: handoff to the nonexistent node `nope` on a Running
session raises a node-lookup error (not a dedicated InvalidTargetError), yet
the current pipecat session has already been closed (the live set is empty)
and a Route event naming the invalid target has been emitted, so the session
does not remain in its last good state as the claim demands; `activeNodeId`
is the only part left unchanged. -/
theorem C2_counterexample :
    (route ["ag1"] invalidRouteSession "nope" "manual" "s1").1
      = some StartNodeError.nodeNotFound ∧
    (route ["ag1"] invalidRouteSession "nope" "manual" "s1").2.liveSessions
      = [] ∧
    (route ["ag1"] invalidRouteSession "nope" "manual" "s1").2.q
      = [.route "fs" (some "n1") "nope" "manual"] ∧
    (route ["ag1"] invalidRouteSession "nope" "manual" "s1").2.active
      = some "n1" := by
  decide

/-- C2 (amended): for every Running session and target absent from the flow
snapshot, handoff fails synchronously with a node-lookup error and
`activeNodeId` is unchanged, but only after the current Agent Context has
been closed and the `route` event naming the invalid target has been
emitted. -/
theorem C2_invalid_target (agentStore : List String) (s : FlowSessionState)
    (toNodeId reason freshSid : String)
    (_hrun : s.closed = false)
    (hinvalid : ∀ n ∈ s.flow, n.id ≠ toNodeId) :
    (route agentStore s toNodeId reason freshSid).1
      = some StartNodeError.nodeNotFound ∧
    (route agentStore s toNodeId reason freshSid).2.active = s.active ∧
    (route agentStore s toNodeId reason freshSid).2.q
      = s.q ++ [.route s.fsid s.active toNodeId reason] ∧
    (∀ sid, s.currentSessionId = some sid → s.liveSessions.Nodup →
      sid ∉ (route agentStore s toNodeId reason freshSid).2.liveSessions) := by
  have hfind : s.flow.find? (fun n => n.id == toNodeId) = none := by
    rw [List.find?_eq_none]
    intro n hn
    simpa using hinvalid n hn
  cases hcs : s.currentSessionId with
  | none =>
    refine ⟨?_, ?_, ?_, ?_⟩
    · simp [route, startNode, hcs, hfind]
    · simp [route, startNode, hcs, hfind]
    · simp [route, startNode, hcs, hfind]
    · intro sid hsid hnd
      cases hsid
  | some sid0 =>
    refine ⟨?_, ?_, ?_, ?_⟩
    · simp [route, startNode, hcs, hfind]
    · simp [route, startNode, hcs, hfind]
    · simp [route, startNode, hcs, hfind]
    · intro sid hsid hnd
      obtain rfl : sid0 = sid := by simpa using hsid
      simp only [route, startNode, hcs, hfind]
      simpa using not_mem_eraseP_self s.liveSessions sid0 hnd

/-- C2 witness: routing the one-node session to the nonexistent `ghost`
fails with the node-lookup error, keeps `activeNodeId` at `n1`, and has
closed the live pipecat session `s0`. -/
theorem C2_witness :
    (route ["ag1"] invalidRouteSession "ghost" "r" "s9").1
      = some StartNodeError.nodeNotFound ∧
    (route ["ag1"] invalidRouteSession "ghost" "r" "s9").2.active = some "n1" ∧
    "s0" ∉ (route ["ag1"] invalidRouteSession "ghost" "r" "s9").2.liveSessions := by
  have h := C2_invalid_target ["ag1"] invalidRouteSession "ghost" "r" "s9" rfl
    (by decide)
  exact ⟨h.1, by simpa using h.2.1, h.2.2.2 "s0" rfl (by decide)⟩

/-- C7: closing a session through the manager is idempotent: a second
`close_async` on the same id leaves the already-closed state untouched and
releases nothing; a close never adds events to any session queue (the
surviving sessions are a sublist of the originals); and whenever the session
exists its external Tavus handle is released and both its tasks are
cancelled, on every exit path. -/
theorem C7_close_idempotent (m : PManager) (sid : String)
    (hnd : (m.sessions.map (fun p => p.1)).Nodup) :
    closeAsync (closeAsync m sid).1 sid = ((closeAsync m sid).1, []) ∧
    (closeAsync m sid).1.sessions.Sublist m.sessions ∧
    (∀ s, pmGet m sid = some s →
      (closeAsync m sid).2 = s.tavusSessionId.toList ∧
      (sessionClose s).1.tavusTaskRunning = false ∧
      (sessionClose s).1.taskRunning = false) := by
  cases hg : pmGet m sid with
  | none =>
    refine ⟨?_, ?_, ?_⟩
    · simp [closeAsync, hg]
    · simp [closeAsync, hg]
    · intro s hs
      cases hs
  | some s =>
    have herase : pmGet ⟨m.sessions.eraseP (fun p => p.1 == sid)⟩ sid = none := by
      simp [pmGet, find_eraseP_key_none m.sessions sid hnd]
    refine ⟨?_, ?_, ?_⟩
    · simp [closeAsync, hg, herase]
    · simp only [closeAsync, hg]
      exact List.eraseP_sublist m.sessions
    · intro s2 hs2
      obtain rfl : s = s2 := by simpa using hs2
      refine ⟨?_, rfl, rfl⟩
      cases ht : s.tavusSessionId <;>
        simp [closeAsync, hg, sessionClose, ht, Option.toList]

/-- C7 witness: closing the demo manager's only session twice yields the
same terminal state with nothing further released, and the first close
releases the Tavus handle `tv1`. -/
theorem C7_witness :
    closeAsync (closeAsync demoManager "s1").1 "s1"
      = ((closeAsync demoManager "s1").1, []) ∧
    (closeAsync demoManager "s1").2 = ["tv1"] := by
  have h := C7_close_idempotent demoManager "s1" (by decide)
  refine ⟨h.1, ?_⟩
  have h2 := (h.2.2 ⟨"s1", some "tv1", true, true, []⟩ rfl).1
  simpa using h2

/-- C9: subscribing to the event stream of an unregistered session id yields
exactly one error event with message "session not found" and then the stream
terminates; the generator returns normally, raising nothing. -/
theorem C9_events_unknown (m : PManager) (sid : String)
    (h : ∀ p ∈ m.sessions, p.1 ≠ sid) :
    managerEvents m sid
      = .closedWith [.error "session not found"] := by
  have hfind : m.sessions.find? (fun p => p.1 == sid) = none := by
    rw [List.find?_eq_none]
    intro p hp
    simpa using h p hp
  simp [managerEvents, pmGet, hfind]

/-- C9 witness: an empty manager yields the single error event. -/
theorem C9_witness :
    managerEvents ⟨[]⟩ "missing"
      = .closedWith [.error "session not found"] :=
  C9_events_unknown ⟨[]⟩ "missing" (by simp)

/-- C8: the registry violates identifier freshness. After two creations for
flow `f` and removal of `ma_f_0`, the next creation generates `ma_f_1`, which
is exactly the identifier of the still-registered live session, contradicting
the endpoint's own "Unique session identifier" contract; the insertion then
silently replaces that session. -/
theorem C8_identifier_collision :
    (registerCoordinator (deregisterCoordinator
        (registerCoordinator
          (registerCoordinator ([] : List (String × Unit)) "f" ()).2 "f" ()).2
        "ma_f_0") "f" ()).1 = "ma_f_1" ∧
    "ma_f_1" ∈ (deregisterCoordinator
        (registerCoordinator
          (registerCoordinator ([] : List (String × Unit)) "f" ()).2 "f" ()).2
        "ma_f_0").map (fun p => p.1) := by
  decide

end FlowOne
